import Mathlib

/-!
Verification of the stock-universe report pipeline (`create_ppt.py`).

The script reads a snapshot file (three metadata lines followed by a CSV
block), coerces the market-cap column to numbers, computes summary
statistics, a sector breakdown and a top-15 ranking, and hands a report
content model to the rendering stage.  This file embeds the pipeline as
executable Lean definitions and proves or refutes the specified claims.

Conventions of the embedding:
  * Python floats are modelled by `ℚ`; the floating NaN is modelled by
    `Option.none` (pandas statistics skip NaN, matching `Option` dropping).
  * A raw CSV cell is a `String`; cells that pandas reads as NaN
    (empty field and the default na-token list) map to `none`.
  * String primitives are re-implemented structurally over `List Char`
    so that every definition evaluates inside the kernel.
-/

/-- ASCII whitespace accepted by Python `str.strip`. -/
def isPySpace (c : Char) : Bool :=
  c == ' ' || c == '\t' || c == '\n' || c == '\r' || c == '\x0b' || c == '\x0c'

/-- Trim leading and trailing whitespace from a character list. -/
def trimChars (cs : List Char) : List Char :=
  ((cs.dropWhile isPySpace).reverse.dropWhile isPySpace).reverse

/-- Python `str.strip()`. -/
def pyStrip (s : String) : String :=
  String.mk (trimChars s.data)

/-- Split a character list on a separator character, keeping empty pieces,
exactly like Python `str.split(sep)` for a one-character separator. -/
def splitOnChar (sep : Char) : List Char → List (List Char)
  | [] => [[]]
  | c :: rest =>
    let r := splitOnChar sep rest
    if c == sep then [] :: r
    else
      match r with
      | [] => [[c]]
      | h :: t => (c :: h) :: t

/-- Split a line into comma-separated cells (Python `line.split(",")`). -/
def splitCells (s : String) : List String :=
  (splitOnChar ',' s.data).map String.mk

/-- First element of a token list that is non-empty, as the Python loop
`for p in parts: if p: return p` (source, `clean_metadata_line`). -/
def firstNonEmpty : List String → Option String
  | [] => none
  | p :: rest => if p = "" then firstNonEmpty rest else some p

/-- Source line 19-24: split a metadata line on commas, strip each token and
return the first non-empty one, `None` when every token is blank. -/
def clean_metadata_line (line : String) : Option String :=
  firstNonEmpty ((splitOnChar ',' line.data).map (fun cs => String.mk (trimChars cs)))

/-- The free-text header fields extracted from the first three lines. -/
structure Metadata where
  title : Option String
  date : Option String
  notes : Option String
deriving DecidableEq, Repr

/-- Source lines 26-30: each field comes from one of the first three lines
when that line exists, guarded by the length test of the source. -/
def parseMetadata (lines : List String) : Metadata where
  title := if 0 < lines.length then clean_metadata_line (lines.getD 0 "") else none
  date := if 1 < lines.length then clean_metadata_line (lines.getD 1 "") else none
  notes := if 2 < lines.length then clean_metadata_line (lines.getD 2 "") else none

/-- Python f-string interpolation of an optional string: `None` prints as
the four-character string `"None"`. -/
def pyShow : Option String → String
  | none => "None"
  | some s => s

theorem firstNonEmpty_eq_find? (l : List String) :
    firstNonEmpty l = l.find? (fun t => !(t == "")) := by
  induction l with
  | nil => rfl
  | cons a t ih =>
    by_cases h : a = ""
    · simp [firstNonEmpty, List.find?, h, ih]
    · have hb : (a == "") = false := beq_eq_false_iff_ne.mpr h
      simp [firstNonEmpty, List.find?, h, hb, ih]

theorem parseMetadata_get? (lines : List String) :
    (parseMetadata lines).title = (lines.get? 0).bind clean_metadata_line ∧
    (parseMetadata lines).date = (lines.get? 1).bind clean_metadata_line ∧
    (parseMetadata lines).notes = (lines.get? 2).bind clean_metadata_line := by
  refine ⟨?_, ?_, ?_⟩ <;>
    match lines with
    | [] => rfl
    | [a] => rfl
    | [a, b] => rfl
    | a :: b :: c :: t => simp [parseMetadata, List.getD]

/-- The default tokens that `pandas.read_csv` reads as NaN (the subset
relevant to this data contract; the empty field is the common case). -/
def naTokens : List String :=
  ["", "n/a", "N/A", "NA", "<NA>", "#N/A", "NULL", "null", "NaN", "-NaN", "nan", "-nan", "None"]

/-- A parsed cell: `none` models the NaN that `read_csv` produces for an
empty field or a default na-token. -/
def cellToOpt (s : String) : Option String :=
  if s ∈ naTokens then none else some s

/-- `Series.astype(str)` on a cell: a NaN cell prints as the string `"nan"`;
for any other cell the round trip through the column dtype is
value-preserving, so it is modelled as the raw text. -/
def astypeStr (s : String) : String :=
  match cellToOpt s with
  | none => "nan"
  | some t => t

/-- Read a non-empty all-digit character list as a number. -/
def digitsToNat (cs : List Char) : Option Nat :=
  if cs.isEmpty then none
  else cs.foldl (fun acc c =>
    match acc with
    | none => none
    | some n => if c.isDigit then some (10 * n + (c.toNat - 48)) else none) (some 0)

/-- Parse an optionally signed integer literal (used for exponents). -/
def parseSignedInt (s : String) : Option Int :=
  match s.data with
  | '-' :: rest => (digitsToNat rest).map (fun n => -(n : Int))
  | '+' :: rest => (digitsToNat rest).map (fun n => (n : Int))
  | cs => (digitsToNat cs).map (fun n => (n : Int))

/-- Parse an unsigned decimal mantissa `digits[.digits]`, with at least one
digit present on one side of the point. -/
def parseMantissa (cs : List Char) : Option ℚ :=
  match splitOnChar '.' cs with
  | [i] => (digitsToNat i).map (fun n => mkRat (Int.ofNat n) 1)
  | [i, f] =>
    if i.isEmpty && f.isEmpty then none
    else
      match (if i.isEmpty then some 0 else digitsToNat i),
            (if f.isEmpty then some 0 else digitsToNat f) with
      | some iv, some fv =>
        some (mkRat (Int.ofNat (iv * 10 ^ f.length + fv)) (10 ^ f.length))
      | _, _ => none
  | _ => none

/-- Multiply a rational by a (possibly negative) power of ten. -/
def scalePow10 (q : ℚ) (ev : Int) : ℚ :=
  match ev with
  | Int.ofNat k => mkRat (q.num * (Int.ofNat (10 ^ k))) q.den
  | Int.negSucc k => mkRat q.num (q.den * 10 ^ (k + 1))

/-- `pandas.to_numeric(_, errors="coerce")` on one string: accept an
optionally signed finite decimal with optional exponent, after trimming
surrounding whitespace; everything else (including the printed NaN)
becomes `none`.  Infinities are outside the data contract and also map to
`none`. -/
def pyToNumeric (s : String) : Option ℚ :=
  let cs := trimChars s.data
  let (neg, body) :=
    match cs with
    | '-' :: rest => (true, rest)
    | '+' :: rest => (false, rest)
    | _ => (false, cs)
  let mag : Option ℚ :=
    match splitOnChar 'e' (body.map (fun c => if c == 'E' then 'e' else c)) with
    | [m] => parseMantissa m
    | [m, ex] =>
      match parseMantissa m, parseSignedInt (String.mk ex) with
      | some mv, some ev => some (scalePow10 mv ev)
      | _, _ => none
    | _ => none
  mag.map (fun q => if neg then -q else q)

/-- Source line 37: `pd.to_numeric(df['MktCap'].astype(str).str.replace(',', ''), errors='coerce')`
applied to one cell — print the cell, delete every literal comma, parse as
a float, and fall back to NaN (`none`). -/
def toNumericCell (s : String) : Option ℚ :=
  pyToNumeric (String.mk ((astypeStr s).data.filter (fun c => !(c == ','))))

/-- The tabular block: retained column names plus the raw rows. -/
structure DataFrame where
  columns : List String
  rows : List (List String)
deriving DecidableEq, Repr

/-- Parse the tabular block that follows the three preamble lines
(`pd.read_csv(file_path, skiprows=3)`): blank lines are skipped, the first
remaining line is the header (a blank header cell is auto-named
`Unnamed: i` after its position), the rest are the data rows.  With
nothing left to parse, `read_csv` raises `EmptyDataError`. -/
def parseTable (body0 : List String) : Except String DataFrame :=
  match body0.filter (fun l => !(l == "")) with
  | [] => Except.error "EmptyDataError: No columns to parse from file"
  | h :: rest =>
    Except.ok
      { columns := (splitCells h).enum.map
          (fun p => if p.2 = "" then "Unnamed: " ++ Nat.repr p.1 else p.2)
        rows := rest.map splitCells }

/-- Source line 33: skip the three metadata lines, parse the remainder. -/
def read_csv (lines : List String) : Except String DataFrame :=
  parseTable (lines.drop 3)

/-- A column survives line 34 iff its name does not start with `Unnamed`. -/
def keepCol (c : String) : Bool :=
  !("Unnamed".data.isPrefixOf c.data)

/-- Source line 34: `df.loc[:, ~df.columns.str.startswith("Unnamed")]` —
drop every placeholder column, keep everything else in order. -/
def drop_unnamed (df : DataFrame) : DataFrame where
  columns := df.columns.filter keepCol
  rows := df.rows.map (fun r => (((df.columns.zip r).filter (fun p => keepCol p.1)).map Prod.snd))

/-- Column access `df[c]`: the cell sequence of the named column, or a
`KeyError` (`none`) when the column is absent.  Rows shorter than the
header read as empty cells (NaN). -/
def getCol (df : DataFrame) (c : String) : Option (List String) :=
  if c ∈ df.columns then
    some (df.rows.map (fun r => ((df.columns.zip r).lookup c).getD ""))
  else none

/-- Drop the NaN entries of a series, keeping order (`Series.dropna`). -/
def dropna {α : Type} : List (Option α) → List α
  | [] => []
  | none :: t => dropna t
  | some a :: t => a :: dropna t

/-- Rational addition computed on numerators and denominators.  The
standard `+` of `ℚ` is sealed against unfolding, so the pipeline uses this
value-equal form, which the kernel can evaluate; `qAdd_eq_add` below
identifies the two. -/
def qAdd (a b : ℚ) : ℚ :=
  mkRat (a.num * (b.den : ℤ) + b.num * (a.den : ℤ)) (a.den * b.den)

/-- Sum of a list of rationals (value-equal to `List.sum`). -/
def qSum (l : List ℚ) : ℚ :=
  l.foldr qAdd 0

/-- Division of a rational by a natural number (value-equal to `a / n`,
including the `n = 0` convention). -/
def qDivNat (a : ℚ) (n : Nat) : ℚ :=
  mkRat a.num (a.den * n)

/-- Multiplication of a rational by a natural number (value-equal to
`a * n`). -/
def qMulNat (a : ℚ) (n : Nat) : ℚ :=
  mkRat (a.num * (n : ℤ)) a.den

theorem qAdd_eq_add (a b : ℚ) : qAdd a b = a + b := by
  have ha : ((a.den : ℚ)) ≠ 0 := Nat.cast_ne_zero.mpr a.den_nz
  have hb : ((b.den : ℚ)) ≠ 0 := Nat.cast_ne_zero.mpr b.den_nz
  rw [qAdd, Rat.mkRat_eq_divInt, Rat.divInt_eq_div]
  push_cast
  conv_rhs => rw [← Rat.num_div_den a, ← Rat.num_div_den b]
  rw [div_add_div _ _ ha hb]
  ring_nf

theorem qSum_eq_sum (l : List ℚ) : qSum l = l.sum := by
  induction l with
  | nil => rfl
  | cons a t ih => rw [qSum, List.foldr_cons, ← qSum, qAdd_eq_add, ih, List.sum_cons]

theorem qDivNat_eq_div (a : ℚ) (n : Nat) : qDivNat a n = a / (n : ℚ) := by
  rw [qDivNat, Rat.mkRat_eq_divInt, Rat.divInt_eq_div]
  push_cast
  conv_rhs => rw [← Rat.num_div_den a]
  rw [div_div]

theorem qMulNat_eq_mul (a : ℚ) (n : Nat) : qMulNat a n = a * (n : ℚ) := by
  rw [qMulNat, Rat.mkRat_eq_divInt, Rat.divInt_eq_div]
  push_cast
  conv_rhs => rw [← Rat.num_div_den a]
  rw [div_mul_eq_mul_div]

/-- `Series.sum()`: NaN entries are skipped; an all-NaN or empty series
sums to `0`. -/
def seriesSum (xs : List (Option ℚ)) : ℚ :=
  qSum (dropna xs)

/-- `Series.mean()`: arithmetic mean of the non-NaN entries, NaN (`none`)
when there are none. -/
def seriesMean (xs : List (Option ℚ)) : Option ℚ :=
  let v := dropna xs
  if v.length = 0 then none else some (qDivNat (qSum v) v.length)

/-- `Series.median()`: midpoint rule on the sorted non-NaN entries, NaN
(`none`) when there are none. -/
def seriesMedian (xs : List (Option ℚ)) : Option ℚ :=
  let v := List.insertionSort (fun a b : ℚ => a ≤ b) (dropna xs)
  let n := v.length
  if n = 0 then none
  else if n % 2 = 1 then some ((v.get? (n / 2)).getD 0)
  else some (qDivNat (qAdd ((v.get? (n / 2 - 1)).getD 0) ((v.get? (n / 2)).getD 0)) 2)

/-- Distinct values of a list in order of first occurrence (the insertion
order of a pandas hash table). -/
def firstSeenAux {α : Type} [DecidableEq α] (seen : List α) : List α → List α
  | [] => []
  | a :: rest =>
    if a ∈ seen then firstSeenAux seen rest
    else a :: firstSeenAux (a :: seen) rest

/-- Distinct values in first-occurrence order. -/
def firstSeen {α : Type} [DecidableEq α] (l : List α) : List α :=
  firstSeenAux [] l

/-- Source line 78, `Series.nunique()`: the number of distinct values after
dropping NaN (`dropna=True` is the pandas default). -/
def nunique (xs : List (Option String)) : Nat :=
  (firstSeen (dropna xs)).length

/-- The count the specification asks for instead: distinct observed values
where a null, if present, counts as one additional category. -/
def distinctObserved (xs : List (Option String)) : Nat :=
  (firstSeen xs).length

/-- Number of occurrences of the value `k` in a series (NaN never equals a
value, so only the non-NaN entries can match). -/
def countOcc (xs : List (Option String)) (k : String) : Nat :=
  (dropna xs).count k

/-- The frequency pairs of `Series.value_counts()` before sorting: one pair
per distinct non-NaN value, keyed in first-occurrence order. -/
def vcPairs (xs : List (Option String)) : List (String × Nat) :=
  (firstSeen (dropna xs)).map (fun k => (k, countOcc xs k))

/-- Descending-count order used by `value_counts`: `a` may precede `b` when
the count of `b` does not exceed the count of `a`. -/
def vcRel (a b : String × Nat) : Prop :=
  b.2 ≤ a.2

instance : DecidableRel vcRel :=
  fun a b => inferInstanceAs (Decidable (b.2 ≤ a.2))

instance : IsTotal (String × Nat) vcRel :=
  ⟨fun a b => Nat.le_total b.2 a.2⟩

instance : IsTrans (String × Nat) vcRel :=
  ⟨fun _ _ _ hab hbc => le_trans hbc hab⟩

/-- Source line 109, `df['SectorCode'].value_counts()`: frequencies of the
non-NaN sector codes, sorted by descending count with a stable sort, so
that ties stay in first-occurrence order. -/
def sector_counts (xs : List (Option String)) : List (String × Nat) :=
  List.insertionSort vcRel (vcPairs xs)

/-- Source lines 111-113: one `(sector, count, percentage)` triple per
breakdown row, the percentage computed against the full row count. -/
def sectorBreakdown (xs : List (Option String)) (total : Nat) : List (String × Nat × ℚ) :=
  (sector_counts xs).map (fun p => (p.1, p.2, qMulNat (qDivNat (mkRat (p.2 : ℤ) 1) total) 100))

/-- One data row as seen by the ranking step: its input position and the
four required fields (text fields and sector already NaN-decoded, the
market cap already coerced). -/
structure StockRow where
  idx : Nat
  ticker : Option String
  name : Option String
  mkt : Option ℚ
  sector : Option String
deriving DecidableEq, Repr

/-- The sort key value of a row; only ever read on rows whose market cap
is present. -/
def mval (r : StockRow) : ℚ :=
  r.mkt.getD 0

/-- Ranking order of `nlargest(15, 'MktCap')` with `keep='first'`:
strictly greater market cap first, ties resolved by input position. -/
def topRel (a b : StockRow) : Prop :=
  mval b < mval a ∨ (mval a = mval b ∧ a.idx ≤ b.idx)

instance : DecidableRel topRel :=
  fun a b => inferInstanceAs (Decidable (mval b < mval a ∨ (mval a = mval b ∧ a.idx ≤ b.idx)))

instance : IsTotal StockRow topRel := by
  constructor
  intro a b
  rcases lt_trichotomy (mval a) (mval b) with h | h | h
  · exact Or.inr (Or.inl h)
  · rcases Nat.le_total a.idx b.idx with hi | hi
    · exact Or.inl (Or.inr ⟨h, hi⟩)
    · exact Or.inr (Or.inr ⟨h.symm, hi⟩)
  · exact Or.inl (Or.inl h)

instance : IsTrans StockRow topRel := by
  constructor
  intro a b c hab hbc
  rcases hab with h1 | ⟨h1, h1i⟩ <;> rcases hbc with h2 | ⟨h2, h2i⟩
  · exact Or.inl (lt_trans h2 h1)
  · exact Or.inl (h2 ▸ h1)
  · exact Or.inl (h1 ▸ h2)
  · exact Or.inr ⟨h1.trans h2, h1i.trans h2i⟩

/-- The rows whose market cap coerced to a number. -/
def nonnullRows (rows : List StockRow) : List StockRow :=
  rows.filter (fun r => r.mkt.isSome)

/-- The rows whose market cap is NaN, in input order. -/
def nullRows (rows : List StockRow) : List StockRow :=
  rows.filter (fun r => !r.mkt.isSome)

/-- The non-NaN rows in ranking order (stable descending market cap). -/
def rankedNonnull (rows : List StockRow) : List StockRow :=
  List.insertionSort topRel (nonnullRows rows)

/-- Source line 130, `df.nlargest(15, 'MktCap')`: the non-NaN rows sorted
by descending market cap (ties by input position), with the NaN rows
appended in input order as filler, truncated to 15 rows.  pandas pads the
selection with NaN rows whenever fewer than 15 values are present: the
slow path sorts with `na_position='last'` and takes `head(n)`, the fast
path concatenates `nan_index` after the selected rows before slicing. -/
def top_stocks (rows : List StockRow) : List StockRow :=
  (rankedNonnull rows ++ nullRows rows).take 15

/-- Round the fraction `n / d` (`d` positive) to the nearest integer,
halves to even — the rounding used by Python `format` on exactly
representable values.  Computed over the integers: with `f` the floor and
`m` the remainder, compare `2 * m` with `d`. -/
def roundHalfEvenFrac (n d : ℤ) : ℤ :=
  let f := Int.fdiv n d
  let m := n - f * d
  if 2 * m < d then f
  else if d < 2 * m then f + 1
  else if f % 2 = 0 then f else f + 1

/-- Round a rational at two decimal places, halves to even: the integer
`c` with `c / 100` the rounded value. -/
def round2 (q : ℚ) : ℤ :=
  roundHalfEvenFrac (100 * q.num) (Int.ofNat q.den)

/-- Insert a thousands separator after every third character of a reversed
digit list. -/
def group3 : List Char → List Char
  | a :: b :: c :: d :: rest => a :: b :: c :: ',' :: group3 (d :: rest)
  | l => l

/-- Python `f"{n:,}"` on a non-negative integer. -/
def fmtInt (n : Nat) : String :=
  String.mk ((group3 (Nat.repr n).data.reverse).reverse)

/-- Python `f"{q:,.2f}"` on a non-negative value: two decimals, thousands
separators in the integer part. -/
def fmtQ2 (q : ℚ) : String :=
  let c := (round2 q).toNat
  fmtInt (c / 100) ++ "." ++ (if c % 100 < 10 then "0" ++ Nat.repr (c % 100) else Nat.repr (c % 100))

/-- Python `f"{q:,.2f}"` including the sign. -/
def fmtFloat2 (q : ℚ) : String :=
  if q.num < 0 then "-" ++ fmtQ2 (-q) else fmtQ2 q

/-- Format a possibly-NaN statistic the way an f-string renders a float:
NaN prints as `"nan"`. -/
def fmtStat : Option ℚ → String
  | none => "nan"
  | some q => fmtFloat2 q

/-- The five summary figures of slide 2 (source lines 74-78), under their
source names. -/
structure SummaryStats where
  total_stocks : Nat
  avg_mktcap : Option ℚ
  median_mktcap : Option ℚ
  total_mktcap : ℚ
  num_sectors : Nat
deriving DecidableEq, Repr

/-- Source lines 81-95: the statistics text block, after the final
`.strip()`. -/
def stats_text (st : SummaryStats) : String :=
  "Total Number of Stocks: " ++ fmtInt st.total_stocks ++
  "\n\nTotal Market Cap: $" ++ fmtFloat2 st.total_mktcap ++
  "M\n\nAverage Market Cap: $" ++ fmtStat st.avg_mktcap ++
  "M\n\nMedian Market Cap: $" ++ fmtStat st.median_mktcap ++
  "M\n\nNumber of Sectors: " ++ Nat.repr st.num_sectors

/-- Python `str(cell)` on a possibly-NaN cell: NaN prints as `"nan"`. -/
def naStr : Option String → String
  | none => "nan"
  | some s => s

/-- One rendered row of the slide-4 table (source lines 160-164). -/
structure TopRow where
  ticker : String
  name : String
  mktText : String
  sector : String
deriving DecidableEq, Repr

/-- Project a ranked row to its table cells: the display name truncated to
40 characters and the market cap rendered `$…`. -/
def projectTop (r : StockRow) : TopRow where
  ticker := naStr r.ticker
  name := String.mk ((naStr r.name).data.take 40)
  mktText := "$" ++ fmtStat r.mkt
  sector := naStr r.sector

/-- Assemble the per-row records handed to the ranking, tagging each row
with its input position. -/
def buildStockRows (tks nms : List (Option String)) (mkt : List (Option ℚ))
    (secs : List (Option String)) : List StockRow :=
  (((tks.zip nms).zip (mkt.zip secs)).enum).map
    (fun p => { idx := p.1, ticker := p.2.1.1, name := p.2.1.2, mkt := p.2.2.1, sector := p.2.2.2 })

/-- The report content model handed to the rendering stage: the title value
and date line of slide 1, the statistics of slide 2, the breakdown rows of
slide 3 and the table rows of slide 4. -/
structure Report where
  title : Option String
  dateText : String
  statsText : String
  stats : SummaryStats
  breakdown : List (String × Nat × ℚ)
  table : List TopRow
deriving DecidableEq, Repr

/-- Source lines 36-168 after the tabular block has been read: coerce the
market-cap column (a `KeyError` when it is absent), compute the summary
statistics (`df['SectorCode']` raises when absent), the breakdown and the
top-15 table (the projection at line 130 raises when `Ticker` or `Name`
is absent), and assemble the content model. -/
def buildReport (md : Metadata) (df : DataFrame) : Except String Report :=
  match getCol df "MktCap" with
  | none => Except.error "KeyError: MktCap"
  | some rawMkt =>
    let mkt := rawMkt.map toNumericCell
    match getCol df "SectorCode" with
    | none => Except.error "KeyError: SectorCode"
    | some rawSec =>
      let sectors := rawSec.map cellToOpt
      let stats : SummaryStats :=
        { total_stocks := df.rows.length
          avg_mktcap := seriesMean mkt
          median_mktcap := seriesMedian mkt
          total_mktcap := seriesSum mkt
          num_sectors := nunique sectors }
      match getCol df "Ticker", getCol df "Name" with
      | none, _ => Except.error "KeyError: Ticker"
      | some _, none => Except.error "KeyError: Name"
      | some rawTks, some rawNms =>
        Except.ok
          { title := md.title
            dateText := "Analysis Date: " ++ pyShow md.date
            statsText := stats_text stats
            stats := stats
            breakdown := sectorBreakdown sectors df.rows.length
            table := (top_stocks (buildStockRows (rawTks.map cellToOpt)
              (rawNms.map cellToOpt) mkt sectors)).map projectTop }

/-- Continue the pipeline after `read_csv`: a parse failure propagates,
otherwise the placeholder columns are dropped and the report is built. -/
def buildFromTable (md : Metadata) (t : Except String DataFrame) : Except String Report :=
  match t with
  | Except.error e => Except.error e
  | Except.ok df0 => buildReport md (drop_unnamed df0)

/-- The whole script on one snapshot: metadata from the first three lines,
the tabular block from the rest, then the report content model. -/
def runPipeline (lines : List String) : Except String Report :=
  buildFromTable (parseMetadata lines) (read_csv lines)

/-- Whether a run aborted with an uncaught exception instead of handing a
content model to the rendering stage. -/
def isFatal (r : Except String Report) : Bool :=
  match r with
  | Except.error _ => true
  | Except.ok _ => false

theorem dropna_append {α : Type} (xs ys : List (Option α)) :
    dropna (xs ++ ys) = dropna xs ++ dropna ys := by
  induction xs with
  | nil => rfl
  | cons h t ih => cases h <;> simp [dropna, ih]

theorem mem_dropna {α : Type} {a : α} {xs : List (Option α)} :
    a ∈ dropna xs ↔ some a ∈ xs := by
  induction xs with
  | nil => simp [dropna]
  | cons h t ih => cases h <;> simp [dropna, ih]

theorem mem_firstSeenAux {α : Type} [DecidableEq α] {a : α} (l : List α) :
    ∀ seen, a ∈ firstSeenAux seen l ↔ a ∈ l ∧ a ∉ seen := by
  induction l with
  | nil => intro seen; simp [firstSeenAux]
  | cons b t ih =>
    intro seen
    by_cases hb : b ∈ seen
    · rw [firstSeenAux, if_pos hb, ih]
      constructor
      · rintro ⟨h1, h2⟩
        exact ⟨List.mem_cons_of_mem _ h1, h2⟩
      · rintro ⟨h1, h2⟩
        refine ⟨?_, h2⟩
        rcases List.mem_cons.mp h1 with rfl | h1
        · exact absurd hb h2
        · exact h1
    · rw [firstSeenAux, if_neg hb]
      by_cases hab : a = b
      · subst hab
        simp [hb]
      · constructor
        · intro h
          rcases List.mem_cons.mp h with rfl | h1
          · exact absurd rfl hab
          · rw [ih] at h1
            exact ⟨List.mem_cons_of_mem _ h1.1, fun hs => h1.2 (List.mem_cons_of_mem _ hs)⟩
        · rintro ⟨h1, h2⟩
          rcases List.mem_cons.mp h1 with rfl | h1
          · exact absurd rfl hab
          · refine List.mem_cons_of_mem _ ?_
            rw [ih]
            refine ⟨h1, fun hs => ?_⟩
            rcases List.mem_cons.mp hs with rfl | hs
            · exact hab rfl
            · exact h2 hs

theorem nodup_firstSeenAux {α : Type} [DecidableEq α] (l : List α) :
    ∀ seen, (firstSeenAux seen l).Nodup := by
  induction l with
  | nil => intro seen; simp [firstSeenAux]
  | cons b t ih =>
    intro seen
    by_cases hb : b ∈ seen
    · rw [firstSeenAux, if_pos hb]
      exact ih seen
    · rw [firstSeenAux, if_neg hb, List.nodup_cons]
      refine ⟨fun hmem => ?_, ih _⟩
      rw [mem_firstSeenAux] at hmem
      exact hmem.2 (List.mem_cons_self _ _)

theorem mem_firstSeen {α : Type} [DecidableEq α] {a : α} {l : List α} :
    a ∈ firstSeen l ↔ a ∈ l := by
  rw [firstSeen, mem_firstSeenAux]
  simp

theorem nodup_firstSeen {α : Type} [DecidableEq α] (l : List α) :
    (firstSeen l).Nodup :=
  nodup_firstSeenAux l []

theorem toFinset_firstSeen {α : Type} [DecidableEq α] (l : List α) :
    (firstSeen l).toFinset = l.toFinset := by
  ext a
  simp [List.mem_toFinset, mem_firstSeen]

theorem getCol_eq_none_iff (df : DataFrame) (c : String) :
    getCol df c = none ↔ c ∉ df.columns := by
  unfold getCol
  split <;> simp_all

theorem getCol_isSome_of_mem {df : DataFrame} {c : String} (h : c ∈ df.columns) :
    getCol df c = some (df.rows.map (fun r => ((df.columns.zip r).lookup c).getD "")) := by
  unfold getCol
  rw [if_pos h]

theorem lookup_filterKeys {β : Type} (p : String → Bool) {c : String} (hc : p c = true) :
    ∀ l : List (String × β), (l.filter (fun x => p x.1)).lookup c = l.lookup c := by
  intro l
  induction l with
  | nil => rfl
  | cons kv t ih =>
    obtain ⟨k, v⟩ := kv
    by_cases hck : c = k
    · subst hck
      simp [List.filter_cons, hc, List.lookup, ih]
    · have hbeq : (c == k) = false := beq_eq_false_iff_ne.mpr hck
      by_cases hk : p k = true
      · simp [List.filter_cons, hk, List.lookup, hbeq, ih]
      · simp only [Bool.not_eq_true] at hk
        simp [List.filter_cons, hk, List.lookup, hbeq, ih]

theorem zip_filterKeys (p : String → Bool) :
    ∀ (cols r : List String),
      (cols.filter p).zip (((cols.zip r).filter (fun x => p x.1)).map Prod.snd)
        = (cols.zip r).filter (fun x => p x.1) := by
  intro cols
  induction cols with
  | nil => intro r; rfl
  | cons c ct ih =>
    intro r
    cases r with
    | nil => simp
    | cons rv rt =>
      by_cases hc : p c = true
      · simp [List.filter_cons, hc, ih rt]
      · simp only [Bool.not_eq_true] at hc
        simp [List.filter_cons, hc, ih rt]

theorem isFatal_buildReport (md md' : Metadata) (df : DataFrame) :
    isFatal (buildReport md df) = isFatal (buildReport md' df) := by
  unfold buildReport
  cases getCol df "MktCap" <;>
    cases getCol df "SectorCode" <;>
      cases getCol df "Ticker" <;>
        cases getCol df "Name" <;> rfl

/-- Claim C7 (confirmed): for each of the first three source lines the
extracted metadata field is the first token that is non-empty after
splitting the line on commas and trimming each token (the `find?`
characterisation); when the line is absent (`get?` misses) or no token
qualifies, the field is null; and the line `" , , Q3 Report , "` yields
`"Q3 Report"`. -/
theorem metadata_first_token (line : String) (lines : List String) :
    clean_metadata_line line
      = (((splitOnChar ',' line.data).map (fun cs => String.mk (trimChars cs))).find?
          (fun t => !(t == ""))) ∧
    clean_metadata_line " , , Q3 Report , " = some "Q3 Report" ∧
    (parseMetadata lines).title = (lines.get? 0).bind clean_metadata_line ∧
    (parseMetadata lines).date = (lines.get? 1).bind clean_metadata_line ∧
    (parseMetadata lines).notes = (lines.get? 2).bind clean_metadata_line :=
  ⟨firstNonEmpty_eq_find? _, by decide, (parseMetadata_get? lines).1,
    (parseMetadata_get? lines).2.1, (parseMetadata_get? lines).2.2⟩

/-- Claim C8 (confirmed): market-cap coercion prints the cell, deletes the
literal commas and parses the result as a float, any failure becoming null
and never an error; `"12,345.6"` gives `12345.6` (the rational
`mkRat 123456 10`), `"n/a"` and `""` give null, and comma deletion is a
plain character filter (`"1,2,3"` parses as `123`). -/
theorem mktcap_coercion (s : String) :
    toNumericCell s
      = pyToNumeric (String.mk ((astypeStr s).data.filter (fun c => !(c == ',')))) ∧
    toNumericCell "12,345.6" = some (mkRat 123456 10) ∧
    mkRat 123456 10 = (123456 : ℚ) / 10 ∧
    toNumericCell "n/a" = none ∧
    toNumericCell "" = none ∧
    toNumericCell "1,2,3" = some 123 := by
  refine ⟨rfl, by decide, ?_, by decide, by decide, by decide⟩
  rw [Rat.mkRat_eq_divInt, Rat.divInt_eq_div]
  norm_num

/-- Claim C9 (confirmed): the total is the sum of the non-null market caps
(nulls dropped, not zeroed), the average and median are taken over the
non-null values only, and appending one null-valued record changes none of
the total, the average and the median; the average of `[1, null]` is `1`,
not `1 / 2`, showing nulls are not treated as zeros. -/
theorem null_record_invariance (xs : List (Option ℚ)) :
    seriesSum xs = (dropna xs).sum ∧
    seriesSum (xs ++ [none]) = seriesSum xs ∧
    seriesMean (xs ++ [none]) = seriesMean xs ∧
    seriesMedian (xs ++ [none]) = seriesMedian xs ∧
    seriesMean [some 1, none] = some 1 := by
  have h : dropna (xs ++ [none]) = dropna xs := by
    rw [dropna_append]
    simp [dropna]
  refine ⟨?_, ?_, ?_, ?_, by decide⟩
  · rw [seriesSum, qSum_eq_sum]
  · rw [seriesSum, seriesSum, h]
  · rw [seriesMean, seriesMean, h]
  · rw [seriesMedian, seriesMedian, h]

/-- Claim C2 counterexample: on the series `[A, null]` the pipeline
computation `nunique` reports `1` sector, while the claimed count — every
distinct observed value with null as its own category — is `2`: pandas
`nunique()` drops nulls (`dropna=True` default) instead of counting them. -/
theorem nunique_drops_null :
    nunique [some "A", none] = 1 ∧ distinctObserved [some "A", none] = 2 := by
  constructor <;> rfl

/-- Claim C2 (amended): `sectorCount` equals the number of distinct
non-null `SectorCode` values observed; null sector codes are dropped from
the count, not tallied as an extra category. -/
theorem nunique_counts_distinct_nonnull (xs : List (Option String)) :
    nunique xs = (dropna xs).toFinset.card := by
  rw [nunique, ← List.toFinset_card_of_nodup (nodup_firstSeen (dropna xs)),
    toFinset_firstSeen]

/-- Claim C4 counterexample: on an empty dataset the three figures are not
all zero, nor one consistent no-data marker: the total is the number `0`
(rendered `"0.00"`), while the average and the median are NaN (rendered
`"nan"`). -/
theorem empty_dataset_inconsistent :
    seriesMean ([] : List (Option ℚ)) = none ∧
    seriesMedian ([] : List (Option ℚ)) = none ∧
    seriesSum ([] : List (Option ℚ)) = 0 ∧
    fmtStat (seriesMean ([] : List (Option ℚ))) = "nan" ∧
    fmtFloat2 (seriesSum ([] : List (Option ℚ))) = "0.00" ∧
    ("nan" : String) ≠ "0.00" :=
  ⟨rfl, rfl, rfl, rfl, by decide, by decide⟩

theorem mem_of_getCol_some {df : DataFrame} {c : String} {v : List String}
    (h : getCol df c = some v) : c ∈ df.columns := by
  by_contra hc
  rw [(getCol_eq_none_iff df c).mpr hc] at h
  cases h

theorem isFatal_buildFromTable (md md' : Metadata) (t : Except String DataFrame) :
    isFatal (buildFromTable md t) = isFatal (buildFromTable md' t) := by
  cases t with
  | error e => rfl
  | ok df0 => exact isFatal_buildReport md md' (drop_unnamed df0)

theorem buildReport_ok_payload {md : Metadata} {df : DataFrame} {r : Report}
    (h : buildReport md df = Except.ok r) :
    r.title = md.title ∧ r.dateText = "Analysis Date: " ++ pyShow md.date := by
  unfold buildReport at h
  cases hM : getCol df "MktCap" <;> rw [hM] at h
  · cases h
  cases hS : getCol df "SectorCode" <;> rw [hS] at h
  · cases h
  cases hT : getCol df "Ticker" <;> rw [hT] at h
  · cases h
  cases hN : getCol df "Name" <;> rw [hN] at h
  · cases h
  injection h with h
  rw [← h]
  exact ⟨rfl, rfl⟩

/-- The snapshot of a tabular block with an intact header and zero data
rows. -/
def exEmptyRows : List String :=
  ["Universe Review", "2024-01-01", "notes", "Ticker,Name,MktCap,SectorCode"]

/-- Claim C1 counterexample: a tabular block with all four required
columns and zero data rows does not make ingestion fail — the pipeline
silently continues and hands over a complete content model whose
statistics are the empty ones (`count = 0`), instead of reporting a fatal
`MalformedTabularBlock` error. -/
theorem zero_rows_not_fatal :
    isFatal (runPipeline exEmptyRows) = false ∧
    (runPipeline exEmptyRows).map Report.stats
      = Except.ok (⟨0, none, none, 0, 0⟩ : SummaryStats) ∧
    (runPipeline exEmptyRows).map Report.table = Except.ok [] :=
  ⟨rfl, rfl, rfl⟩

/-- Claim C1 (amended): if after dropping the placeholder columns the
header is missing any of the required columns `Ticker`, `Name`, `MktCap`,
`SectorCode`, the pipeline aborts with a raised error (an uncaught
`KeyError` at the first access of the missing column) and no report
content model is produced; a tabular block with zero data rows, however,
is not fatal — the run continues with empty statistics. -/
theorem missing_required_column_fatal (lines : List String) (df : DataFrame)
    (hread : read_csv lines = Except.ok df)
    (hmiss : ¬("Ticker" ∈ (drop_unnamed df).columns ∧
               "Name" ∈ (drop_unnamed df).columns ∧
               "MktCap" ∈ (drop_unnamed df).columns ∧
               "SectorCode" ∈ (drop_unnamed df).columns)) :
    isFatal (runPipeline lines) = true := by
  unfold runPipeline buildFromTable
  rw [hread]
  show isFatal (buildReport (parseMetadata lines) (drop_unnamed df)) = true
  set d := drop_unnamed df with hd
  unfold buildReport
  cases hM : getCol d "MktCap" with
  | none => rfl
  | some rawMkt =>
    cases hS : getCol d "SectorCode" with
    | none => rfl
    | some rawSec =>
      cases hT : getCol d "Ticker" with
      | none => rfl
      | some rawTks =>
        cases hN : getCol d "Name" with
        | none => rfl
        | some rawNms =>
          exact absurd ⟨mem_of_getCol_some hT, mem_of_getCol_some hN,
            mem_of_getCol_some hM, mem_of_getCol_some hS⟩ hmiss

/-- A snapshot whose header lacks the required `SectorCode` column. -/
def exMissingCol : List String :=
  ["Universe Review", "2024-01-01", "notes", "Ticker,Name,MktCap", "AAA,Apple,100"]

/-- Witness for the amended claim C1 at a concrete snapshot missing
`SectorCode`. -/
theorem missing_required_column_fatal_witness :
    isFatal (runPipeline exMissingCol) = true :=
  missing_required_column_fatal exMissingCol
    { columns := ["Ticker", "Name", "MktCap"], rows := [["AAA", "Apple", "100"]] }
    rfl (by decide)

/-- The snapshot whose second metadata line (the date) carries no
non-empty token. -/
def exMissingDate : List String :=
  ["My Title", " , , ", "notes", "Ticker,Name,MktCap,SectorCode", "AAA,Apple Inc,100,Tech"]

/-- Claim C3 counterexample: with the date line blank the run does
complete, but the absent field does not resolve to an `"unknown"`
placeholder — the extracted field is Python `None`, and the string handed
to the rendering stage is the interpolation `"Analysis Date: None"`. -/
theorem missing_date_renders_none :
    (parseMetadata exMissingDate).date = none ∧
    (runPipeline exMissingDate).map Report.dateText = Except.ok "Analysis Date: None" ∧
    (runPipeline exMissingDate).map Report.title = Except.ok (some "My Title") ∧
    ("Analysis Date: None" : String) ≠ "Analysis Date: unknown" ∧
    ("Analysis Date: None" : String) ≠ "Analysis Date: Unknown" :=
  ⟨rfl, rfl, rfl, by decide, by decide⟩

/-- Claim C3 (amended): an absent or token-less metadata line never aborts
the run — success or failure of the pipeline is unchanged by replacing the
three preamble lines — and the absent field resolves to Python `None`,
which is handed to the rendering stage as-is for the title and as the
interpolated string `"None"` inside the date line; no `"unknown"`
placeholder exists. -/
theorem missing_metadata_tolerated (l1 l2 : List String) (hdrop : l1.drop 3 = l2.drop 3) :
    isFatal (runPipeline l1) = isFatal (runPipeline l2) ∧
    (∀ r, runPipeline l1 = Except.ok r →
      r.title = (parseMetadata l1).title ∧
      r.dateText = "Analysis Date: " ++ pyShow (parseMetadata l1).date) ∧
    pyShow none = "None" := by
  refine ⟨?_, ?_, rfl⟩
  · show isFatal (buildFromTable (parseMetadata l1) (parseTable (l1.drop 3)))
      = isFatal (buildFromTable (parseMetadata l2) (parseTable (l2.drop 3)))
    rw [hdrop]
    exact isFatal_buildFromTable _ _ _
  · intro r hr
    unfold runPipeline buildFromTable at hr
    cases ht : read_csv l1 with
    | error e => rw [ht] at hr; cases hr
    | ok df0 =>
      rw [ht] at hr
      exact buildReport_ok_payload hr

/-- Witness for the amended claim C3: dropping the date line of a concrete
snapshot leaves the run equally successful. -/
theorem missing_metadata_tolerated_witness :
    isFatal (runPipeline exMissingDate) = isFatal (runPipeline
      ["My Title", "2024-01-01", "notes", "Ticker,Name,MktCap,SectorCode", "AAA,Apple Inc,100,Tech"]) :=
  (missing_metadata_tolerated exMissingDate
    ["My Title", "2024-01-01", "notes", "Ticker,Name,MktCap,SectorCode", "AAA,Apple Inc,100,Tech"]
    rfl).1

/-- Claim C10 (confirmed): dropping removes exactly the columns whose name
starts with the string `Unnamed` — a prefix match, so a legitimately named
column that merely begins with `Unnamed` is removed too — while every
other column keeps its cell data unchanged, the remaining columns keep
their relative order (a sublist of the original header), and the rows are
transformed in place, preserving their count and order. -/
theorem drop_unnamed_spec (df : DataFrame) :
    (∀ c, c ∈ (drop_unnamed df).columns ↔
      c ∈ df.columns ∧ ("Unnamed".data.isPrefixOf c.data) = false) ∧
    (drop_unnamed df).columns.Sublist df.columns ∧
    (drop_unnamed df).rows.length = df.rows.length ∧
    (∀ c, keepCol c = true → getCol (drop_unnamed df) c = getCol df c) := by
  refine ⟨?_, ?_, ?_, ?_⟩
  · intro c
    show c ∈ df.columns.filter keepCol ↔ _
    rw [List.mem_filter, keepCol, Bool.not_eq_true']
  · exact List.filter_sublist df.columns
  · exact List.length_map _ _
  · intro c hc
    by_cases hmem : c ∈ df.columns
    · have hmem' : c ∈ (drop_unnamed df).columns := by
        show c ∈ df.columns.filter keepCol
        rw [List.mem_filter]
        exact ⟨hmem, hc⟩
      rw [getCol_isSome_of_mem hmem, getCol_isSome_of_mem hmem']
      show some ((df.rows.map _).map _) = _
      rw [List.map_map]
      congr 1
      apply List.map_congr_left
      intro r hr
      show ((((df.columns.filter keepCol).zip
          (((df.columns.zip r).filter (fun p => keepCol p.1)).map Prod.snd)).lookup c).getD "")
        = (((df.columns.zip r).lookup c).getD "")
      rw [zip_filterKeys, lookup_filterKeys _ hc]
    · have hmem' : "Unnamed".data.isPrefixOf c.data = false ∨ c ∉ (drop_unnamed df).columns := by
        refine Or.inr ?_
        show ¬ c ∈ df.columns.filter keepCol
        rw [List.mem_filter]
        exact fun h => hmem h.1
      rcases hmem' with h | h
      · rw [(getCol_eq_none_iff _ _).mpr hmem, (getCol_eq_none_iff _ _).mpr]
        show ¬ c ∈ df.columns.filter keepCol
        rw [List.mem_filter]
        exact fun hx => hmem hx.1
      · rw [(getCol_eq_none_iff _ _).mpr h, (getCol_eq_none_iff _ _).mpr hmem]

/-- A frame with a placeholder column, a legitimately named column that
merely begins with `Unnamed`, and two regular columns. -/
def exFrameC10 : DataFrame :=
  { columns := ["Ticker", "Unnamed: 1", "UnnamedRevenue", "Name"],
    rows := [["AAA", "x", "5", "Apple"]] }

/-- Witness for claim C10 at a concrete frame: the kept column `Name`
reads the same cells before and after the drop, and the legitimately
named `UnnamedRevenue` column is removed by the prefix match. -/
theorem drop_unnamed_spec_witness :
    getCol (drop_unnamed exFrameC10) "Name" = getCol exFrameC10 "Name" ∧
    "UnnamedRevenue" ∈ exFrameC10.columns ∧
    "UnnamedRevenue" ∉ (drop_unnamed exFrameC10).columns :=
  ⟨(drop_unnamed_spec exFrameC10).2.2.2 "Name" (by decide), by decide, by decide⟩

/-- Claim C4 (amended): with zero records nothing raises — the run
completes — but the three figures are not reported uniformly: the total is
the number `0` (the skip-NaN sum of an empty series), while the average
and the median are NaN; the statistics text renders them `$0.00M`,
`$nanM` and `$nanM`. -/
theorem empty_dataset_reporting :
    seriesSum ([] : List (Option ℚ)) = 0 ∧
    seriesMean ([] : List (Option ℚ)) = none ∧
    seriesMedian ([] : List (Option ℚ)) = none ∧
    stats_text ⟨0, none, none, 0, 0⟩
      = "Total Number of Stocks: 0\n\nTotal Market Cap: $0.00M\n\nAverage Market Cap: $nanM\n\nMedian Market Cap: $nanM\n\nNumber of Sectors: 0" ∧
    isFatal (runPipeline exEmptyRows) = false ∧
    (runPipeline exEmptyRows).map Report.statsText
      = Except.ok "Total Number of Stocks: 0\n\nTotal Market Cap: $0.00M\n\nAverage Market Cap: $nanM\n\nMedian Market Cap: $nanM\n\nNumber of Sectors: 0" :=
  ⟨rfl, rfl, rfl, by decide, rfl, rfl⟩

theorem mem_sector_counts {xs : List (Option String)} {k : String} {c : Nat} :
    (k, c) ∈ sector_counts xs ↔ some k ∈ xs ∧ c = countOcc xs k := by
  rw [sector_counts, (List.perm_insertionSort vcRel (vcPairs xs)).mem_iff, vcPairs,
    List.mem_map]
  constructor
  · rintro ⟨k0, hk0, heq⟩
    rw [Prod.ext_iff] at heq
    obtain ⟨e1, e2⟩ := heq
    dsimp at e1 e2
    subst e1
    exact ⟨mem_dropna.mp (mem_firstSeen.mp hk0), e2.symm⟩
  · rintro ⟨h1, rfl⟩
    exact ⟨k, mem_firstSeen.mpr (mem_dropna.mpr h1), rfl⟩

/-- Claim C5 (confirmed): the sector breakdown lists exactly one
`(sector, count, percentage)` triple per distinct non-NaN sector code with
its occurrence count, sorted by descending count; ties keep the
first-encountered order, which insertion sorting preserves (any pair in
first-seen order with equal counts stays a sublist of the result); and
every percentage equals `100 * count / total` against the full row count
passed in by the pipeline, not the non-null market-cap count. -/
theorem sector_breakdown_spec (xs : List (Option String)) (total : Nat) :
    (∀ k c, (k, c) ∈ sector_counts xs ↔ some k ∈ xs ∧ c = countOcc xs k) ∧
    ((sector_counts xs).map Prod.fst).Nodup ∧
    (sector_counts xs).Pairwise (fun a b => b.2 ≤ a.2) ∧
    (∀ k1 k2, [k1, k2].Sublist (firstSeen (dropna xs)) →
      countOcc xs k2 = countOcc xs k1 →
      [(k1, countOcc xs k1), (k2, countOcc xs k2)].Sublist (sector_counts xs)) ∧
    (∀ t ∈ sectorBreakdown xs total,
      t.2.2 = 100 * (t.2.1 : ℚ) / (total : ℚ) ∧ (t.1, t.2.1) ∈ sector_counts xs) := by
  have hsorted : (sector_counts xs).Pairwise vcRel :=
    List.sorted_insertionSort vcRel (vcPairs xs)
  refine ⟨fun k c => mem_sector_counts, ?_, ?_, ?_, ?_⟩
  · have hperm : List.Perm ((sector_counts xs).map Prod.fst) ((vcPairs xs).map Prod.fst) :=
      (List.perm_insertionSort vcRel (vcPairs xs)).map Prod.fst
    have hkeys : (vcPairs xs).map Prod.fst = firstSeen (dropna xs) := by
      rw [vcPairs, List.map_map]
      exact List.map_id'' (fun k => rfl) _
    rw [hperm.nodup_iff, hkeys]
    exact nodup_firstSeen _
  · exact hsorted.imp (fun h => h)
  · intro k1 k2 hsub hcnt
    have hpair : ([(k1, countOcc xs k1), (k2, countOcc xs k2)]).Pairwise vcRel := by
      refine List.pairwise_cons.mpr ⟨?_, List.pairwise_singleton _ _⟩
      intro b hb
      rw [List.mem_singleton] at hb
      subst hb
      exact le_of_eq hcnt
    have hsubp : ([(k1, countOcc xs k1), (k2, countOcc xs k2)]).Sublist (vcPairs xs) := by
      have h := hsub.map (fun k => (k, countOcc xs k))
      rw [vcPairs]
      exact h
    exact List.sublist_insertionSort hpair hsubp
  · intro t ht
    rw [sectorBreakdown, List.mem_map] at ht
    obtain ⟨p, hp, rfl⟩ := ht
    constructor
    · show qMulNat (qDivNat (mkRat (p.2 : ℤ) 1) total) 100 = _
      rw [qMulNat_eq_mul, qDivNat_eq_div, Rat.mkRat_one]
      push_cast
      ring
    · show (p.1, p.2) ∈ sector_counts xs
      rw [Prod.mk.eta]
      exact hp

/-- Witness for claim C5 at the specification example: the sector series
`[A, B, A, A, B]` groups to the pair `(B, 2)` among its counts. -/
theorem sector_breakdown_spec_witness :
    ("B", 2) ∈ sector_counts [some "A", some "B", some "A", some "A", some "B"] :=
  ((sector_breakdown_spec [some "A", some "B", some "A", some "A", some "B"] 5).1 "B" 2).mpr
    ⟨by decide, by decide⟩

/-- A snapshot with one numeric and one unparsable market cap. -/
def exNullCap : List String :=
  ["T", "D", "N", "Ticker,Name,MktCap,SectorCode", "AAA,Apple,100,Tech", "BBB,Beta,n/a,Tech"]

/-- Claim C6 counterexample: records with null market cap are not excluded
from the ranking — with fewer than 15 non-null values, `nlargest` pads the
selection with the NaN rows, so the null `BBB` record appears in the
ranking (and in the rendered table as `$nan`). -/
theorem top_stocks_includes_null :
    top_stocks [⟨0, some "AAA", some "Apple", some 100, some "T"⟩,
        ⟨1, some "BBB", some "Beta", none, some "T"⟩]
      = [⟨0, some "AAA", some "Apple", some 100, some "T"⟩,
        ⟨1, some "BBB", some "Beta", none, some "T"⟩] ∧
    (⟨1, some "BBB", some "Beta", none, some "T"⟩ : StockRow).mkt = none ∧
    (runPipeline exNullCap).map Report.table
      = Except.ok [⟨"AAA", "Apple", "$100.00", "Tech"⟩, ⟨"BBB", "Beta", "$nan", "Tech"⟩] :=
  ⟨by decide, rfl, rfl⟩

/-- Claim C6 (amended): the ranking takes the first 15 of the non-null
rows sorted by descending market cap followed by the null rows in input
order; the sorted non-null prefix is ordered by descending market cap;
when at least 15 rows have a non-null market cap the ranking is entirely
non-null (nulls are excluded); every non-null row left out has a market
cap no greater than any selected one; ties at the selection boundary are
broken by input position (the earlier of two equal rows is always kept);
and a null row never precedes a non-null row in the ranking — nulls only
pad the tail when fewer than 15 non-null values exist. -/
theorem top_stocks_spec (rows : List StockRow) :
    top_stocks rows
      = (rankedNonnull rows).take 15
        ++ (nullRows rows).take (15 - (nonnullRows rows).length) ∧
    ((rankedNonnull rows).take 15).Pairwise (fun a b => mval b ≤ mval a) ∧
    (15 ≤ (nonnullRows rows).length → ∀ x ∈ top_stocks rows, x.mkt.isSome = true) ∧
    (∀ x ∈ (rankedNonnull rows).take 15, ∀ y ∈ nonnullRows rows,
      y ∉ (rankedNonnull rows).take 15 → mval y ≤ mval x) ∧
    (∀ a ∈ nonnullRows rows, ∀ b ∈ nonnullRows rows,
      mval a = mval b → a.idx < b.idx → b ∈ (rankedNonnull rows).take 15 →
        a ∈ (rankedNonnull rows).take 15) ∧
    (top_stocks rows).Pairwise (fun a b => b.mkt.isSome = true → a.mkt.isSome = true) := by
  have hlen : (rankedNonnull rows).length = (nonnullRows rows).length :=
    List.length_insertionSort topRel _
  have hsorted : (rankedNonnull rows).Pairwise topRel :=
    List.sorted_insertionSort topRel _
  have hsplit : ((rankedNonnull rows).take 15 ++ (rankedNonnull rows).drop 15).Pairwise topRel := by
    rw [List.take_append_drop]
    exact hsorted
  rw [List.pairwise_append] at hsplit
  have hnn : ∀ x ∈ rankedNonnull rows, x.mkt.isSome = true := fun x hx =>
    (List.mem_filter.mp ((List.mem_insertionSort topRel).mp hx)).2
  refine ⟨?_, ?_, ?_, ?_, ?_, ?_⟩
  · rw [top_stocks, List.take_append_eq_append_take, hlen]
  · exact (List.Pairwise.sublist (List.take_sublist _ _) hsorted).imp
      (fun h => h.elim le_of_lt (fun hh => le_of_eq hh.1.symm))
  · intro h15 x hx
    rw [top_stocks, List.take_append_of_le_length (hlen ▸ h15)] at hx
    exact hnn x ((List.take_sublist _ _).subset hx)
  · intro x hx y hy hyn
    have hy_s : y ∈ rankedNonnull rows := (List.mem_insertionSort topRel).mpr hy
    rw [← List.take_append_drop 15 (rankedNonnull rows)] at hy_s
    rcases List.mem_append.mp hy_s with h | h
    · exact absurd h hyn
    · exact (hsplit.2.2 x hx y h).elim le_of_lt (fun hh => le_of_eq hh.1.symm)
  · intro a ha b hb hm hidx hbtake
    by_contra han
    have ha_s : a ∈ rankedNonnull rows := (List.mem_insertionSort topRel).mpr ha
    rw [← List.take_append_drop 15 (rankedNonnull rows)] at ha_s
    rcases List.mem_append.mp ha_s with h | h
    · exact han h
    · rcases hsplit.2.2 b hbtake a h with hlt | ⟨heq, hle⟩
      · rw [hm] at hlt
        exact absurd hlt (lt_irrefl _)
      · exact absurd hidx (Nat.not_lt.mpr hle)
  · refine List.Pairwise.sublist (List.take_sublist _ _) ?_
    rw [List.pairwise_append]
    refine ⟨?_, ?_, ?_⟩
    · exact List.pairwise_of_forall_mem_list (fun a haa b hbb => fun _ => hnn a haa)
    · refine List.pairwise_of_forall_mem_list (fun a haa b hbb => ?_)
      intro hbs
      have := (List.mem_filter.mp hbb).2
      rw [Bool.not_eq_true'] at this
      rw [this] at hbs
      cases hbs
    · intro a haa b hbb
      exact fun _ => hnn a haa

/-- Witness for the amended claim C6: with two rows of equal market cap
the earlier row is selected whenever the later one is. -/
theorem top_stocks_spec_witness :
    (⟨0, some "AAA", some "Apple", some 50, some "T"⟩ : StockRow)
      ∈ (rankedNonnull [⟨0, some "AAA", some "Apple", some 50, some "T"⟩,
          ⟨1, some "BBB", some "Beta", some 50, some "T"⟩]).take 15 :=
  (top_stocks_spec [⟨0, some "AAA", some "Apple", some 50, some "T"⟩,
      ⟨1, some "BBB", some "Beta", some 50, some "T"⟩]).2.2.2.2.1
    ⟨0, some "AAA", some "Apple", some 50, some "T"⟩ (by decide)
    ⟨1, some "BBB", some "Beta", some 50, some "T"⟩ (by decide)
    (by decide) (by decide) (by decide)
